import Mathlib

/-!
Shallow embedding of the gibgoGame software GPU-emulation layer
(memory allocator, command ring, vertex transform and rasterization
pipeline), with theorems checking the specification's claims.

Machine 64-bit unsigned arithmetic is modelled over `Nat` with explicit
reduction modulo `2 ^ 64` at every operation the C source performs on
`u64` values.  The custom `f32` wrapper type and native C `float`
arithmetic are modelled by exact rational arithmetic (`Rat`): each
`f32_add`/`f32_sub`/`f32_mul`/`f32_div` of the source becomes the exact
operation, comparisons `f32_lt`/`f32_gt`/`f32_le`/`f32_ge` become the
exact order on `Rat`.
-/

namespace Gibgo

/-- `2 ^ 64`, the modulus of the C `u64` type. -/
def U64 : ℕ := 2 ^ 64

/-- Result codes, from `GibgoResult` in gpu_device.h (only the
constructors the embedded operations can produce). -/
inductive GibgoResult where
  | SUCCESS
  | ERROR_OUT_OF_MEMORY
  | ERROR_INVALID_PARAMETER
  | ERROR_GPU_TIMEOUT
  deriving DecidableEq, Repr

/-- One slot of the allocation table (`GibgoGPUMemoryAllocation`):
`(gpu_address, cpu_pointer, size, in_use)`.  `cpu_pointer` is the
CPU address `pool_memory + pool_used` captured at allocation time. -/
structure Alloc where
  gpu_address : ℕ
  cpu_pointer : ℕ
  size : ℕ
  in_use : Bool
  deriving DecidableEq, Repr

/-- The device state visible to the allocator and mapper: the memory
pool bookkeeping of `gibgo_allocate_gpu_memory` plus the VRAM virtual
address counter of the device.  The C source keeps the table as a fixed
array of 256 slots whose `in_use` flags are never cleared (free is a
logged no-op), so in-use slots are exactly a prefix filled in creation
order; the table is therefore modelled as the list of in-use slots in
that order, together with `allocation_count`.  `mem` is the content of
CPU-addressable memory (the backing pool), one byte per address. -/
structure DeviceMem where
  pool_used : ℕ
  pool_size : ℕ
  pool_memory : ℕ
  allocation_count : ℕ
  allocations : List Alloc
  vram_physical_address : ℕ
  vram_allocation_offset : ℕ
  mem : ℕ → ℕ

/-- `align_gpu_memory(size, 256)` from the allocator:
`(size + alignment - 1) & ~(alignment - 1)` in `u64` arithmetic.
For `n < 2 ^ 64`, `n & ~255 = 256 * (n / 256)`. -/
def align_gpu_memory (size : ℕ) : ℕ :=
  256 * (((size + 255) % U64) / 256)

/-- `gibgo_allocate_gpu_memory` (src/unnamed/part_001, lines 386-435):
returns the result code, the new device state, and the returned GPU
address on success.  All `u64` additions reduce modulo `2 ^ 64`. -/
def gibgo_allocate_gpu_memory (d : DeviceMem) (size : ℕ) :
    GibgoResult × DeviceMem × Option ℕ :=
  if size = 0 then (.ERROR_INVALID_PARAMETER, d, none)
  else
    let aligned_size := align_gpu_memory size
    if d.pool_size < (d.pool_used + aligned_size) % U64 then
      (.ERROR_OUT_OF_MEMORY, d, none)
    else if 256 ≤ d.allocation_count then
      (.ERROR_OUT_OF_MEMORY, d, none)
    else
      let gpu_address := (d.vram_physical_address + d.vram_allocation_offset) % U64
      let cpu_pointer := d.pool_memory + d.pool_used
      (.SUCCESS,
       { d with
          allocations := d.allocations ++
            [{ gpu_address := gpu_address, cpu_pointer := cpu_pointer,
               size := aligned_size, in_use := true }]
          pool_used := (d.pool_used + aligned_size) % U64
          allocation_count := d.allocation_count + 1
          vram_allocation_offset := (d.vram_allocation_offset + aligned_size) % U64 },
       some gpu_address)

/-- `gibgo_map_gpu_memory` (src/unnamed/part_001, lines 453-481): scan
the allocation table for an in-use slot whose `gpu_address` equals the
requested address; reject when the requested size exceeds that slot's
size, otherwise return its CPU pointer.  No state is modified. -/
def gibgo_map_gpu_memory (d : DeviceMem) (gpu_address size : ℕ) :
    GibgoResult × Option ℕ :=
  if size = 0 then (.ERROR_INVALID_PARAMETER, none)
  else
    match d.allocations.find? fun a => a.in_use && a.gpu_address == gpu_address with
    | none => (.ERROR_INVALID_PARAMETER, none)
    | some a =>
        if a.size < size then (.ERROR_INVALID_PARAMETER, none)
        else (.SUCCESS, some a.cpu_pointer)

/-- `gibgo_unmap_gpu_memory` (src/unnamed/part_001, lines 485-502):
validate that the CPU address is the pointer of an in-use allocation;
the backing memory is left intact (the function only logs), so the
device state is returned unchanged. -/
def gibgo_unmap_gpu_memory (d : DeviceMem) (cpu_address : ℕ) :
    GibgoResult × DeviceMem :=
  match d.allocations.find? fun a => a.in_use && a.cpu_pointer == cpu_address with
  | none => (.ERROR_INVALID_PARAMETER, d)
  | some _ => (.SUCCESS, d)

/-- Write a byte list through a CPU pointer (a `memcpy` into mapped
memory): byte `i` of `data` lands at address `p + i`. -/
def writeBytes (d : DeviceMem) (p : ℕ) (data : List ℕ) : DeviceMem :=
  { d with mem := fun i =>
      if h : p ≤ i ∧ i - p < data.length then data.get ⟨i - p, h.2⟩ else d.mem i }

/-- Read `n` bytes back from a CPU pointer. -/
def readBytes (d : DeviceMem) (p n : ℕ) : List ℕ :=
  (List.range n).map fun i => d.mem (p + i)

/-- Device memory state right after `gibgo_create_device`: empty
allocation table, both bump pointers zero (`vram_allocation_offset = 0`
at device creation, `pool_used = 0` in the zero-initialized pool). -/
def freshPool (phys base sz : ℕ) : DeviceMem :=
  { pool_used := 0
    pool_size := sz
    pool_memory := base
    allocation_count := 0
    allocations := []
    vram_physical_address := phys
    vram_allocation_offset := 0
    mem := fun _ => 0 }

/-- Run a list of allocation requests in order, collecting the GPU
addresses returned by the successful calls. -/
def allocRun (d : DeviceMem) : List ℕ → DeviceMem × List ℕ
  | [] => (d, [])
  | r :: rs =>
      let step := gibgo_allocate_gpu_memory d r
      let rest := allocRun step.2.1 rs
      (rest.1, match step.2.2 with
               | some a => a :: rest.2
               | none => rest.2)

/-! ## Command ring (gpu_device.c and submit_commands_to_hardware) -/

/-- The producer/consumer indices of `GibgoCommandRing`. -/
structure CmdRing where
  head_offset : ℕ
  tail_offset : ℕ
  capacity : ℕ
  deriving DecidableEq, Repr

/-- One iteration of the submission loop of `submit_commands_to_hardware`
(gpu_commands.c, lines 102-130) with no consumer advancing the head:
compute `next_tail = (tail + 1) % capacity`; if it equals the head the
full-ring wait path is entered (and, the head never moving, times out,
so the tail does not advance); otherwise the command is written at
`ring_index = tail` and the tail advances.  The returned flag records
whether the full-ring path was entered. -/
def submitOne (r : CmdRing) : Bool × CmdRing :=
  let next_tail := (r.tail_offset + 1) % r.capacity
  if next_tail = r.head_offset then (true, r)
  else (false, { r with tail_offset := next_tail })

/-- Submit `n` commands with no consumer: the loop stops at the first
entry into the full-ring path (the C code returns `GPU_TIMEOUT` there).
The flag records whether the full-ring path was ever entered. -/
def submitNoConsume : ℕ → CmdRing → Bool × CmdRing
  | 0, r => (false, r)
  | n + 1, r =>
      let s := submitOne r
      if s.1 then (true, s.2) else submitNoConsume n s.2

/-- Ring capacity set by `gibgo_create_device` (gpu_device.c line 376):
1024 command slots. -/
def cmd_ring_capacity : ℕ := 1024

/-- `sizeof(u32)` on the target platform. -/
def sizeof_u32 : ℕ := 4

/-- Size in bytes of the `command_buffer` allocation made by
`gibgo_create_device` (gpu_device.c line 377):
`capacity * sizeof(u32)`. -/
def cmd_ring_buffer_size : ℕ := cmd_ring_capacity * sizeof_u32

/-- The byte just past the highest byte stored by the four `u32` writes
`command_buffer[ring_index*4 + 0 .. 3]` of `submit_commands_to_hardware`
(gpu_commands.c lines 124-127): word index `ring_index*4 + 3` occupies
bytes `[4*(ring_index*4+3), 4*(ring_index*4+3)+4)`. -/
def command_write_end (ring_index : ℕ) : ℕ :=
  sizeof_u32 * (ring_index * 4 + 3) + sizeof_u32

/-- All four word writes for slot `ring_index` land inside the
`command_buffer` allocation. -/
def command_write_within_buffer (ring_index : ℕ) : Prop :=
  command_write_end ring_index ≤ cmd_ring_buffer_size

/-! ## Rational model of the f32 graphics pipeline -/

/-- `Vec3f` (math.h): three `f32` components (padding ignored). -/
structure Vec3 where
  x : ℚ
  y : ℚ
  z : ℚ
  deriving DecidableEq, Repr

/-- `Vec4f` (math.h). -/
structure Vec4 where
  x : ℚ
  y : ℚ
  z : ℚ
  w : ℚ
  deriving DecidableEq, Repr

/-- `Mat4f` (math.h): four columns, column-major as in the source. -/
structure Mat4 where
  c0 : Vec4
  c1 : Vec4
  c2 : Vec4
  c3 : Vec4
  deriving DecidableEq, Repr

/-- `mat4f_mul_vec4f` (math.h lines 418-429). -/
def mat4f_mul_vec4f (m : Mat4) (v : Vec4) : Vec4 :=
  { x := m.c0.x * v.x + m.c1.x * v.y + (m.c2.x * v.z + m.c3.x * v.w)
    y := m.c0.y * v.x + m.c1.y * v.y + (m.c2.y * v.z + m.c3.y * v.w)
    z := m.c0.z * v.x + m.c1.z * v.y + (m.c2.z * v.z + m.c3.z * v.w)
    w := m.c0.w * v.x + m.c1.w * v.y + (m.c2.w * v.z + m.c3.w * v.w) }

/-- `GibgoVertex` of the directDrm rotating_cube variant: 3D position
plus RGB color. -/
structure GibgoVertex where
  position : Vec3
  color : Vec3
  deriving DecidableEq, Repr

/-- `TransformedVertex` (gpu_commands.c lines 503-507): screen-space
x, y plus NDC z, carried color, and the validity flag. -/
structure TransformedVertex where
  position : Vec3
  color : Vec3
  is_valid : Bool
  deriving DecidableEq, Repr

/-- `transform_vertex_to_screen` (gpu_commands.c lines 512-590):
lift to homogeneous coordinates, multiply by the MVP matrix, run the
frustum test exactly as the code writes it — `w_abs = f32_abs(clip.w)`
and `inside = w_abs > 0 && |clip.x| <= w_abs && |clip.y| <= w_abs`
(the Z planes are deliberately not tested) — then perspective-divide
and viewport-map.  The clipped branch leaves the zero-initialized
`result` with `is_valid = false`. -/
def transform_vertex_to_screen (vertex : GibgoVertex) (mvp : Mat4)
    (screen_width screen_height : ℕ) : TransformedVertex :=
  let vertex_pos : Vec4 :=
    { x := vertex.position.x, y := vertex.position.y, z := vertex.position.z, w := 1 }
  let clip_space := mat4f_mul_vec4f mvp vertex_pos
  let w_abs := |clip_space.w|
  if 0 < w_abs ∧ |clip_space.x| ≤ w_abs ∧ |clip_space.y| ≤ w_abs then
    let w_inv := 1 / clip_space.w
    let ndc_x := clip_space.x * w_inv
    let ndc_y := clip_space.y * w_inv
    let ndc_z := clip_space.z * w_inv
    let screen_x := (ndc_x * (1/2) + 1/2) * (screen_width : ℚ)
    let screen_y := (1 - (ndc_y * (1/2) + 1/2)) * (screen_height : ℚ)
    { position := { x := screen_x, y := screen_y, z := ndc_z }
      color := vertex.color
      is_valid := true }
  else
    { position := { x := 0, y := 0, z := 0 }
      color := { x := 0, y := 0, z := 0 }
      is_valid := false }

/-- `point_in_triangle_barycentric` (gpu_commands.c lines 593-632):
returns the weights `(u, v, w)` when the point is inside, `none` on a
degenerate triangle or an outside point.  The float literal
`0.000001f` is modelled by the rational `1/1000000`. -/
def point_in_triangle_barycentric (px py x1 y1 x2 y2 x3 y3 : ℚ) :
    Option (ℚ × ℚ × ℚ) :=
  let v0x := x3 - x1
  let v0y := y3 - y1
  let v1x := x2 - x1
  let v1y := y2 - y1
  let v2x := px - x1
  let v2y := py - y1
  let dot00 := v0x * v0x + v0y * v0y
  let dot01 := v0x * v1x + v0y * v1y
  let dot02 := v0x * v2x + v0y * v2y
  let dot11 := v1x * v1x + v1y * v1y
  let dot12 := v1x * v2x + v1y * v2y
  let denom := dot00 * dot11 - dot01 * dot01
  if |denom| ≤ 1 / 1000000 then none
  else
    let inv_denom := 1 / denom
    let u := (dot11 * dot02 - dot01 * dot12) * inv_denom
    let v := (dot00 * dot12 - dot01 * dot02) * inv_denom
    let w := 1 - (u + v)
    if 0 ≤ u ∧ 0 ≤ v ∧ 0 ≤ w then some (u, v, w) else none

/-- `interpolate_triangle_color` (gpu_commands.c lines 635-644):
`u` weights the third color, `v` the second, `w` the first. -/
def interpolate_triangle_color (c1 c2 c3 : Vec3) (u v w : ℚ) : Vec3 :=
  { x := u * c3.x + v * c2.x + w * c1.x
    y := u * c3.y + v * c2.y + w * c1.y
    z := u * c3.z + v * c2.z + w * c1.z }

/-- Truncation toward zero of a rational, as a C float-to-int cast. -/
def ratTrunc (q : ℚ) : ℤ :=
  if 0 ≤ q then ⌊q⌋ else -⌊-q⌋

/-- Truncation toward zero into an unsigned value. -/
def ratTruncNat (q : ℚ) : ℕ := (ratTrunc q).toNat

/-- `f32_clamp` (gpu_commands.c lines 490-492). -/
def f32_clamp (value min_val max_val : ℚ) : ℚ :=
  min (max value min_val) max_val

/-- The packed `0xAARRGGBB` pixel built by `rasterize_triangle`
(gpu_commands.c lines 680-683): each channel clamped to `[0,1]`,
scaled by 255 and truncated, then OR-ed below alpha `0xFF`. -/
def packColor (c : Vec3) : ℕ :=
  let r := ratTruncNat (f32_clamp c.x 0 1 * 255)
  let g := ratTruncNat (f32_clamp c.y 0 1 * 255)
  let b := ratTruncNat (f32_clamp c.z 0 1 * 255)
  0xFF000000 ||| (r <<< 16) ||| (g <<< 8) ||| b

/-- A framebuffer of packed 32-bit pixels, indexed `y * width + x`. -/
abbrev Framebuffer := ℕ → ℕ

/-- Screen-space bounding box of a triangle, clamped and truncated as
in `rasterize_triangle` (gpu_commands.c lines 652-661). -/
def raster_start_x (v1 v2 v3 : TransformedVertex) : ℤ :=
  ratTrunc (max (min (min v1.position.x v2.position.x) v3.position.x) 0)

def raster_end_x (width : ℕ) (v1 v2 v3 : TransformedVertex) : ℤ :=
  ratTrunc (min (max (max v1.position.x v2.position.x) v3.position.x) ((width - 1 : ℕ) : ℚ))

def raster_start_y (v1 v2 v3 : TransformedVertex) : ℤ :=
  ratTrunc (max (min (min v1.position.y v2.position.y) v3.position.y) 0)

def raster_end_y (height : ℕ) (v1 v2 v3 : TransformedVertex) : ℤ :=
  ratTrunc (min (max (max v1.position.y v2.position.y) v3.position.y) ((height - 1 : ℕ) : ℚ))

/-- `rasterize_triangle` (gpu_commands.c lines 647-693) as a
framebuffer transformer.  The C double loop visits each pixel of the
clamped bounding box once and each pixel's write depends only on that
pixel, so the loop is modelled pointwise: pixel index `idx` decomposes
as `(x, y) = (idx % width, idx / width)`, the write happens exactly
when `(x, y)` is inside the loop ranges, the barycentric test accepts
it, and the index passes the `pixel_index < width * height` guard. -/
def rasterize_triangle (width height : ℕ) (v1 v2 v3 : TransformedVertex)
    (fb : Framebuffer) : Framebuffer :=
  fun idx =>
    let x := idx % width
    let y := idx / width
    if raster_start_y v1 v2 v3 ≤ (y : ℤ) ∧ (y : ℤ) ≤ raster_end_y height v1 v2 v3 ∧
       raster_start_x v1 v2 v3 ≤ (x : ℤ) ∧ (x : ℤ) ≤ raster_end_x width v1 v2 v3 then
      match point_in_triangle_barycentric (x : ℚ) (y : ℚ)
          v1.position.x v1.position.y v2.position.x v2.position.y
          v3.position.x v3.position.y with
      | some (u, v, w) =>
          if idx < width * height then
            packColor (interpolate_triangle_color v1.color v2.color v3.color u v w)
          else fb idx
      | none => fb idx
    else fb idx

/-- `is_triangle_back_facing` (gpu_commands.c lines 697-710): the 2D
cross product of the two edge vectors from vertex 1 is negative. -/
def is_triangle_back_facing (v1 v2 v3 : TransformedVertex) : Bool :=
  let edge1_x := v2.position.x - v1.position.x
  let edge1_y := v2.position.y - v1.position.y
  let edge2_x := v3.position.x - v1.position.x
  let edge2_y := v3.position.y - v1.position.y
  let cross_product_z := edge1_x * edge2_y - edge1_y * edge2_x
  decide (cross_product_z < 0)

/-- Steps 5-7 of the per-triangle loop of `render_3d_cube_software`
(gpu_commands.c lines 798-812): skip the triangle when any vertex is
invalid, skip when culling is enabled and the triangle is back-facing,
otherwise rasterize it. -/
def render_triangle (face_culling_enabled : Bool) (width height : ℕ)
    (tv1 tv2 tv3 : TransformedVertex) (fb : Framebuffer) : Framebuffer :=
  if !tv1.is_valid || !tv2.is_valid || !tv3.is_valid then fb
  else if face_culling_enabled && is_triangle_back_facing tv1 tv2 tv3 then fb
  else rasterize_triangle width height tv1 tv2 tv3 fb

/-! ## Depth-tested rasterizer (the gibgoGraphics rotating_cube variant) -/

/-- A triangle as it reaches the pixel loop of the depth-tested
`rasterize_triangle` (gibgoGraphics rotating_cube gpu_commands.c):
screen-space coordinates `x0..z2` (after the transform and
screen-mapping of that function's earlier lines) and the vertex
colors. -/
structure DepthTri where
  x0 : ℚ
  y0 : ℚ
  z0 : ℚ
  x1 : ℚ
  y1 : ℚ
  z1 : ℚ
  x2 : ℚ
  y2 : ℚ
  z2 : ℚ
  c0 : Vec3
  c1 : Vec3
  c2 : Vec3
  deriving DecidableEq, Repr

/-- The barycentric denominator of the depth-tested rasterizer
(line 281): `(y1-y2)*(x0-x2) + (x2-x1)*(y0-y2)`. -/
def depth_denom (t : DepthTri) : ℚ :=
  (t.y1 - t.y2) * (t.x0 - t.x2) + (t.x2 - t.x1) * (t.y0 - t.y2)

/-- Weight `w0` at a pixel (line 284). -/
def depth_w0 (t : DepthTri) (px py : ℚ) : ℚ :=
  ((t.y1 - t.y2) * (px - t.x2) + (t.x2 - t.x1) * (py - t.y2)) / depth_denom t

/-- Weight `w1` at a pixel (line 285). -/
def depth_w1 (t : DepthTri) (px py : ℚ) : ℚ :=
  ((t.y2 - t.y0) * (px - t.x2) + (t.x0 - t.x2) * (py - t.y2)) / depth_denom t

/-- Weight `w2 = 1 - w0 - w1` (line 286). -/
def depth_w2 (t : DepthTri) (px py : ℚ) : ℚ :=
  1 - depth_w0 t px py - depth_w1 t px py

/-- Interpolated depth `z = w0*z0 + w1*z1 + w2*z2` (line 291). -/
def depth_z (t : DepthTri) (px py : ℚ) : ℚ :=
  depth_w0 t px py * t.z0 + depth_w1 t px py * t.z1 + depth_w2 t px py * t.z2

/-- Interpolated color (lines 300-302): here each weight multiplies its
own vertex's color. -/
def depth_color (t : DepthTri) (px py : ℚ) : Vec3 :=
  { x := depth_w0 t px py * t.c0.x + depth_w1 t px py * t.c1.x + depth_w2 t px py * t.c2.x
    y := depth_w0 t px py * t.c0.y + depth_w1 t px py * t.c1.y + depth_w2 t px py * t.c2.y
    z := depth_w0 t px py * t.c0.z + depth_w1 t px py * t.c1.z + depth_w2 t px py * t.c2.z }

/-- Packed pixel of the depth-tested rasterizer (lines 305-309): scale
by 255, clamp to `[0, 255]`, truncate, pack under alpha `0xFF`. -/
def packColorDepth (c : Vec3) : ℕ :=
  let red := ratTruncNat (min (max (c.x * 255) 0) 255)
  let green := ratTruncNat (min (max (c.y * 255) 0) 255)
  let blue := ratTruncNat (min (max (c.z * 255) 0) 255)
  0xFF000000 ||| (red <<< 16) ||| (green <<< 8) ||| blue

/-- Clamped integer bounding box of the depth-tested rasterizer
(lines 272-275). -/
def depth_min_x (t : DepthTri) : ℤ := ratTrunc (max 0 (min (min t.x0 t.x1) t.x2))

def depth_max_x (width : ℕ) (t : DepthTri) : ℤ :=
  ratTrunc (min ((width - 1 : ℕ) : ℚ) (max (max t.x0 t.x1) t.x2))

def depth_min_y (t : DepthTri) : ℤ := ratTrunc (max 0 (min (min t.y0 t.y1) t.y2))

def depth_max_y (height : ℕ) (t : DepthTri) : ℤ :=
  ratTrunc (min ((height - 1 : ℕ) : ℚ) (max (max t.y0 t.y1) t.y2))

/-- The pixel `(x, y)` reaches the depth comparison (lines 278-289): it
is in the clamped bounding box, the triangle is not degenerate
(`|denom| < 1e-6` skips), and all three weights are nonnegative. -/
def depth_hit (width height : ℕ) (t : DepthTri) (x y : ℕ) : Prop :=
  depth_min_y t ≤ (y : ℤ) ∧ (y : ℤ) ≤ depth_max_y height t ∧
  depth_min_x t ≤ (x : ℤ) ∧ (x : ℤ) ≤ depth_max_x width t ∧
  ¬ |depth_denom t| < 1 / 1000000 ∧
  0 ≤ depth_w0 t (x : ℚ) (y : ℚ) ∧ 0 ≤ depth_w1 t (x : ℚ) (y : ℚ) ∧
  0 ≤ depth_w2 t (x : ℚ) (y : ℚ)

instance (width height : ℕ) (t : DepthTri) (x y : ℕ) :
    Decidable (depth_hit width height t x y) := by
  unfold depth_hit; infer_instance

/-- The depth-tested `rasterize_triangle` (gibgoGraphics rotating_cube
gpu_commands.c, lines 271-313) as a transformer of the framebuffer and
the depth buffer.  As with the flat rasterizer, each bounding-box pixel
is visited once and touches only its own framebuffer and depth-buffer
entries, so the double loop is modelled pointwise: at a hit pixel whose
interpolated `z` is smaller than the stored depth, the depth buffer
takes `z` and the framebuffer takes the interpolated packed color. -/
def rasterize_triangle_depth (width height : ℕ) (t : DepthTri)
    (fb : Framebuffer) (db : ℕ → ℚ) : Framebuffer × (ℕ → ℚ) :=
  (fun idx =>
     let x := idx % width
     let y := idx / width
     if depth_hit width height t x y ∧ depth_z t (x : ℚ) (y : ℚ) < db idx then
       packColorDepth (depth_color t (x : ℚ) (y : ℚ))
     else fb idx,
   fun idx =>
     let x := idx % width
     let y := idx / width
     if depth_hit width height t x y ∧ depth_z t (x : ℚ) (y : ℚ) < db idx then
       depth_z t (x : ℚ) (y : ℚ)
     else db idx)

/-! ## Concrete inputs used by theorems and witnesses -/

/-- `mat4f_identity` (math.h lines 381-391). -/
def mat4Identity : Mat4 :=
  { c0 := { x := 1, y := 0, z := 0, w := 0 }
    c1 := { x := 0, y := 1, z := 0, w := 0 }
    c2 := { x := 0, y := 0, z := 1, w := 0 }
    c3 := { x := 0, y := 0, z := 0, w := 1 } }

/-- The diagonal matrix `diag(1, 1, 1, -1)`: it sends the origin's
homogeneous form `(0, 0, 0, 1)` to the clip-space point
`(0, 0, 0, -1)`, whose `w` is negative. -/
def mat4NegW : Mat4 :=
  { c0 := { x := 1, y := 0, z := 0, w := 0 }
    c1 := { x := 0, y := 1, z := 0, w := 0 }
    c2 := { x := 0, y := 0, z := 1, w := 0 }
    c3 := { x := 0, y := 0, z := 0, w := -1 } }

/-- A vertex at the origin (white color). -/
def originVertex : GibgoVertex :=
  { position := { x := 0, y := 0, z := 0 }, color := { x := 1, y := 1, z := 1 } }

/-- An all-zero framebuffer. -/
def fbZero : Framebuffer := fun _ => 0

/-- A valid transformed vertex at screen `(0, 0)`, red. -/
def tvA : TransformedVertex :=
  { position := { x := 0, y := 0, z := 0 }, color := { x := 1, y := 0, z := 0 }, is_valid := true }

/-- A valid transformed vertex at screen `(0, 10)`, green. -/
def tvB : TransformedVertex :=
  { position := { x := 0, y := 10, z := 0 }, color := { x := 0, y := 1, z := 0 }, is_valid := true }

/-- A valid transformed vertex at screen `(10, 0)`, blue.
`tvA, tvB, tvC` wind clockwise in screen space. -/
def tvC : TransformedVertex :=
  { position := { x := 10, y := 0, z := 0 }, color := { x := 0, y := 0, z := 1 }, is_valid := true }

/-! ## Ring-buffer lemmas -/

/-- Submitting `n` commands into an empty ring with tail at `k` and
head fixed at `0` never meets the full condition and advances the tail
to `k + n`, provided `k + n` stays below the capacity. -/
theorem submitNoConsume_run (cap n : ℕ) :
    ∀ k, k + n < cap →
      submitNoConsume n { head_offset := 0, tail_offset := k, capacity := cap } =
        (false, { head_offset := 0, tail_offset := k + n, capacity := cap }) := by
  induction n with
  | zero => intro k h; simp [submitNoConsume]
  | succ n ih =>
      intro k h
      have hs : submitOne { head_offset := 0, tail_offset := k, capacity := cap } =
          (false, { head_offset := 0, tail_offset := k + 1, capacity := cap }) := by
        have hk1 : (k + 1) % cap = k + 1 := Nat.mod_eq_of_lt (by omega)
        simp [submitOne, hk1]
      simp only [submitNoConsume, hs, Bool.false_eq_true, if_false]
      rw [show k + (n + 1) = (k + 1) + n by omega]
      exact ih (k + 1) (by omega)

/-- Splitting a submission run at a point where the full path has not
yet been entered. -/
theorem submitNoConsume_add (n m : ℕ) :
    ∀ r : CmdRing, (submitNoConsume n r).1 = false →
      submitNoConsume (n + m) r = submitNoConsume m (submitNoConsume n r).2 := by
  induction n with
  | zero => intro r _; simp [submitNoConsume]
  | succ n ih =>
      intro r h
      have hs' : (submitOne r).1 = false := by
        cases hh : (submitOne r).1
        · rfl
        · exfalso; simp [submitNoConsume, hh] at h
      have hstep : ∀ j, submitNoConsume (j + 1) r = submitNoConsume j (submitOne r).2 := by
        intro j
        simp [submitNoConsume, hs']
      rw [hstep n] at h
      rw [show n + 1 + m = (n + m) + 1 by omega, hstep (n + m), hstep n]
      exact ih (submitOne r).2 h

/-! ## Allocator lemmas -/

/-- The allocation list fills the address range from `a` to `b` with
back-to-back blocks: each block starts where the previous one ended. -/
def Contig : ℕ → List Alloc → ℕ → Prop
  | a, [], b => a = b
  | a, al :: rest, b => al.gpu_address = a ∧ Contig (a + al.size) rest b

theorem contig_append (l1 : List Alloc) :
    ∀ (a b c : ℕ) (l2 : List Alloc), Contig a l1 b → Contig b l2 c →
      Contig a (l1 ++ l2) c := by
  induction l1 with
  | nil =>
      intro a b c l2 h1 h2
      simp only [Contig] at h1
      simpa [h1] using h2
  | cons al rest ih =>
      intro a b c l2 h1 h2
      obtain ⟨he, hr⟩ := h1
      exact ⟨he, ih _ _ _ _ hr h2⟩

theorem contig_addr_ge (l : List Alloc) :
    ∀ (a b : ℕ), Contig a l b → ∀ y ∈ l, a ≤ y.gpu_address := by
  induction l with
  | nil => intro a b _ y hy; exact absurd hy (List.not_mem_nil y)
  | cons al rest ih =>
      intro a b h y hy
      obtain ⟨he, hr⟩ := h
      rcases List.mem_cons.mp hy with rfl | hy'
      · omega
      · have := ih _ _ hr y hy'
        omega

theorem contig_pairwise (l : List Alloc) :
    ∀ (a b : ℕ), Contig a l b →
      l.Pairwise (fun x y => x.gpu_address + x.size ≤ y.gpu_address) := by
  induction l with
  | nil => intro a b _; exact List.Pairwise.nil
  | cons al rest ih =>
      intro a b h
      obtain ⟨he, hr⟩ := h
      refine List.Pairwise.cons ?_ (ih _ _ hr)
      intro y hy
      have := contig_addr_ge rest _ _ hr y hy
      omega

/-- The state invariant of the bump allocator: the bump pointer fits in
the pool and mirrors the VRAM offset, every recorded allocation is
in use with a 256-byte-aligned size of at least 256 bytes, the
allocations tile `[phys, phys + pool_used)` back to back, and the
address arithmetic cannot wrap 64 bits. -/
structure AllocInv (d : DeviceMem) : Prop where
  used_le : d.pool_used ≤ d.pool_size
  off_eq : d.vram_allocation_offset = d.pool_used
  sizes : ∀ al ∈ d.allocations, al.in_use = true ∧ 256 ≤ al.size ∧ al.size % 256 = 0
  contig : Contig d.vram_physical_address d.allocations
    (d.vram_physical_address + d.pool_used)
  no_wrap : d.vram_physical_address + d.pool_size < U64

theorem align_spec (r : ℕ) (h : r + 255 < U64) (h1 : 1 ≤ r) :
    r ≤ align_gpu_memory r ∧ align_gpu_memory r < r + 256 ∧
    align_gpu_memory r % 256 = 0 ∧ 256 ≤ align_gpu_memory r := by
  unfold align_gpu_memory
  rw [Nat.mod_eq_of_lt h]
  omega

/-- The successful path of `gibgo_allocate_gpu_memory`, with every
`u64` reduction removed by the no-overflow hypotheses. -/
theorem alloc_success (d : DeviceMem) (hI : AllocInv d) (r : ℕ) (h1 : 1 ≤ r)
    (h2 : d.pool_size + r + 255 < U64)
    (hfit : d.pool_used + align_gpu_memory r ≤ d.pool_size)
    (hcount : d.allocation_count < 256) :
    gibgo_allocate_gpu_memory d r =
      (.SUCCESS,
       { d with
          allocations := d.allocations ++
            [{ gpu_address := d.vram_physical_address + d.pool_used,
               cpu_pointer := d.pool_memory + d.pool_used,
               size := align_gpu_memory r, in_use := true }]
          pool_used := d.pool_used + align_gpu_memory r
          allocation_count := d.allocation_count + 1
          vram_allocation_offset := d.pool_used + align_gpu_memory r },
       some (d.vram_physical_address + d.pool_used)) := by
  have halign := align_spec r (by omega) h1
  have hmod1 : (d.pool_used + align_gpu_memory r) % U64 = d.pool_used + align_gpu_memory r :=
    Nat.mod_eq_of_lt (by omega)
  have hmod2 : (d.vram_physical_address + d.vram_allocation_offset) % U64 =
      d.vram_physical_address + d.pool_used := by
    rw [hI.off_eq]
    exact Nat.mod_eq_of_lt (by have := hI.no_wrap; have := hI.used_le; omega)
  simp only [gibgo_allocate_gpu_memory]
  rw [if_neg (by omega)]
  rw [hmod1, if_neg (by omega), if_neg (by omega)]
  rw [hmod2, hI.off_eq, hmod1]

/-- A request whose aligned size no longer fits in the pool (and whose
bounds check does not wrap) fails with out-of-memory and leaves the
device state untouched. -/
theorem alloc_oom (d : DeviceMem) (r : ℕ) (h1 : 1 ≤ r)
    (hnw : d.pool_used + align_gpu_memory r < U64)
    (hex : d.pool_size < d.pool_used + align_gpu_memory r) :
    gibgo_allocate_gpu_memory d r = (.ERROR_OUT_OF_MEMORY, d, none) := by
  simp only [gibgo_allocate_gpu_memory]
  rw [if_neg (by omega)]
  rw [Nat.mod_eq_of_lt hnw, if_pos hex]

/-- A request hitting the 256-slot table limit also fails with
out-of-memory and leaves the device state untouched. -/
theorem alloc_oom_count (d : DeviceMem) (r : ℕ) (h1 : 1 ≤ r)
    (hc : 256 ≤ d.allocation_count) :
    gibgo_allocate_gpu_memory d r = (.ERROR_OUT_OF_MEMORY, d, none) := by
  simp only [gibgo_allocate_gpu_memory]
  rw [if_neg (by omega)]
  by_cases hex : d.pool_size < (d.pool_used + align_gpu_memory r) % U64
  · rw [if_pos hex]
  · rw [if_neg hex, if_pos hc]

theorem alloc_success_inv (d : DeviceMem) (hI : AllocInv d) (r : ℕ) (h1 : 1 ≤ r)
    (h2 : d.pool_size + r + 255 < U64)
    (hfit : d.pool_used + align_gpu_memory r ≤ d.pool_size) :
    AllocInv
      { d with
          allocations := d.allocations ++
            [{ gpu_address := d.vram_physical_address + d.pool_used,
               cpu_pointer := d.pool_memory + d.pool_used,
               size := align_gpu_memory r, in_use := true }]
          pool_used := d.pool_used + align_gpu_memory r
          allocation_count := d.allocation_count + 1
          vram_allocation_offset := d.pool_used + align_gpu_memory r } := by
  have halign := align_spec r (by omega) h1
  refine ⟨hfit, rfl, ?_, ?_, hI.no_wrap⟩
  · intro al hal
    rcases List.mem_append.mp hal with hmem | hmem
    · exact hI.sizes al hmem
    · rcases List.mem_singleton.mp hmem with rfl
      refine ⟨rfl, ?_, ?_⟩
      · show 256 ≤ align_gpu_memory r
        omega
      · show align_gpu_memory r % 256 = 0
        omega
  · refine contig_append _ _ _ _ _ hI.contig ⟨rfl, ?_⟩
    show d.vram_physical_address + d.pool_used + align_gpu_memory r =
      d.vram_physical_address + (d.pool_used + align_gpu_memory r)
    omega

/-- Invariant, bump-pointer and returned-address bookkeeping over a
whole run of allocation requests. -/
theorem allocRun_spec (reqs : List ℕ) :
    ∀ d : DeviceMem, AllocInv d →
      (∀ r ∈ reqs, 1 ≤ r ∧ d.pool_size + r + 255 < U64) →
      AllocInv (allocRun d reqs).1 ∧
      d.pool_used ≤ (allocRun d reqs).1.pool_used ∧
      (allocRun d reqs).1.pool_size = d.pool_size ∧
      (allocRun d reqs).1.vram_physical_address = d.vram_physical_address ∧
      (∀ a ∈ (allocRun d reqs).2,
         d.vram_physical_address + d.pool_used ≤ a ∧
         a < d.vram_physical_address + (allocRun d reqs).1.pool_used) ∧
      List.Chain' (· < ·) (allocRun d reqs).2 := by
  induction reqs with
  | nil =>
      intro d hI _
      refine ⟨hI, le_refl _, rfl, rfl, ?_, List.chain'_nil⟩
      intro a ha
      exact absurd ha (List.not_mem_nil a)
  | cons r rs ih =>
      intro d hI hr
      obtain ⟨hr1, hrw⟩ := hr r (List.mem_cons_self r rs)
      have hrs : ∀ q ∈ rs, 1 ≤ q ∧ d.pool_size + q + 255 < U64 :=
        fun q hq => hr q (List.mem_cons_of_mem r hq)
      have halign := align_spec r (by omega) hr1
      by_cases hfit : d.pool_used + align_gpu_memory r ≤ d.pool_size
      · by_cases hcount : d.allocation_count < 256
        · -- successful allocation
          have hstep := alloc_success d hI r hr1 hrw hfit hcount
          have hI' := alloc_success_inv d hI r hr1 hrw hfit
          set d1 : DeviceMem :=
            { d with
                allocations := d.allocations ++
                  [{ gpu_address := d.vram_physical_address + d.pool_used,
                     cpu_pointer := d.pool_memory + d.pool_used,
                     size := align_gpu_memory r, in_use := true }]
                pool_used := d.pool_used + align_gpu_memory r
                allocation_count := d.allocation_count + 1
                vram_allocation_offset := d.pool_used + align_gpu_memory r } with hd1
          have h1u : d1.pool_used = d.pool_used + align_gpu_memory r := by rw [hd1]
          have h1s : d1.pool_size = d.pool_size := by rw [hd1]
          have h1p : d1.vram_physical_address = d.vram_physical_address := by rw [hd1]
          have hrs1 : ∀ q ∈ rs, 1 ≤ q ∧ d1.pool_size + q + 255 < U64 := by
            simp only [h1s]
            exact hrs
          obtain ⟨jI, jused, jsz, jphys, jbnd, jchain⟩ := ih d1 hI' hrs1
          rw [h1u] at jused
          simp only [h1u, h1p] at jbnd
          have hrun1 : (allocRun d (r :: rs)).1 = (allocRun d1 rs).1 := by
            simp only [allocRun, hstep]
          have hrun2 : (allocRun d (r :: rs)).2 =
              (d.vram_physical_address + d.pool_used) :: (allocRun d1 rs).2 := by
            simp only [allocRun, hstep]
          refine ⟨?_, ?_, ?_, ?_, ?_, ?_⟩
          · rw [hrun1]; exact jI
          · rw [hrun1]; omega
          · rw [hrun1, jsz, h1s]
          · rw [hrun1, jphys, h1p]
          · intro a ha
            rw [hrun2] at ha
            rw [hrun1]
            rcases List.mem_cons.mp ha with rfl | ha'
            · exact ⟨le_refl _, by omega⟩
            · have := jbnd a ha'
              omega
          · rw [hrun2]
            refine List.chain'_cons'.mpr ⟨?_, jchain⟩
            intro b hb
            have hbmem : b ∈ (allocRun d1 rs).2 := List.mem_of_mem_head? hb
            have := jbnd b hbmem
            omega
        · -- allocation table exhausted: state unchanged
          have hstep := alloc_oom_count d r hr1 (by omega)
          have hrun : allocRun d (r :: rs) = allocRun d rs := by
            simp only [allocRun, hstep]
          rw [hrun]
          exact ih d hI hrs
      · -- out of pool space: state unchanged
        have hstep := alloc_oom d r hr1 (by have := hI.used_le; omega) (by omega)
        have hrun : allocRun d (r :: rs) = allocRun d rs := by
          simp only [allocRun, hstep]
        rw [hrun]
        exact ih d hI hrs

theorem freshPool_inv (phys base sz : ℕ) (hnw : phys + sz < U64) :
    AllocInv (freshPool phys base sz) := by
  refine ⟨Nat.zero_le _, rfl, ?_, ?_, hnw⟩
  · intro al hal
    exact absurd hal (List.not_mem_nil al)
  · simp [freshPool, Contig]

/-! ## Mapping lemmas -/

theorem find?_unique {α : Type} {p : α → Bool} (l : List α) (x : α)
    (hmem : x ∈ l) (hp : p x = true) (huni : ∀ y ∈ l, p y = true → y = x) :
    l.find? p = some x := by
  induction l with
  | nil => exact absurd hmem (List.not_mem_nil x)
  | cons b t ih =>
      by_cases hb : p b = true
      · rw [List.find?_cons_of_pos _ hb]
        rw [huni b (List.mem_cons_self b t) hb]
      · rw [List.find?_cons_of_neg _ hb]
        rcases List.mem_cons.mp hmem with rfl | hmem'
        · exact absurd hp hb
        · exact ih hmem' fun y hy hpy => huni y (List.mem_cons_of_mem b hy) hpy

/-- Non-success results of `gibgo_map_gpu_memory` are exactly
`(INVALID_PARAMETER, none)`. -/
theorem map_fail_shape (d : DeviceMem) (a s : ℕ) :
    (gibgo_map_gpu_memory d a s).1 = .SUCCESS ∨
    gibgo_map_gpu_memory d a s = (.ERROR_INVALID_PARAMETER, none) := by
  unfold gibgo_map_gpu_memory
  split
  · exact Or.inr rfl
  · split
    · exact Or.inr rfl
    · split
      · exact Or.inr rfl
      · exact Or.inl rfl

/-- The device state used by the mapping witnesses: a fresh 1024-byte
pool after one 256-byte allocation, recorded as
`(gpu_address 4096, cpu_pointer 0, size 256, in use)`. -/
def c8Dev : DeviceMem :=
  (gibgo_allocate_gpu_memory (freshPool 4096 0 1024) 256).2.1

/-! ## Claim theorems -/

/-- C2 (amended): starting from a freshly created device, in the
absence of 64-bit wraparound in the allocator arithmetic (the VRAM base
plus pool size stays below `2 ^ 64`, and so does the pool size plus
each request plus the alignment slack), every recorded allocation has a
256-byte-aligned size, the addresses returned by the successful calls
are strictly increasing, the recorded address ranges are pairwise
non-overlapping, a request whose aligned size no longer fits in the
remaining pool returns out-of-memory leaving the bump pointers and the
allocation table unchanged, and every successful call records exactly
the requested size rounded up to the next 256-byte boundary. -/
theorem allocator_monotone_aligned (phys base sz : ℕ) (hnw : phys + sz < U64)
    (reqs : List ℕ) (hreqs : ∀ r ∈ reqs, 1 ≤ r ∧ sz + r + 255 < U64) :
    (∀ al ∈ (allocRun (freshPool phys base sz) reqs).1.allocations,
        256 ≤ al.size ∧ al.size % 256 = 0) ∧
    List.Chain' (· < ·) (allocRun (freshPool phys base sz) reqs).2 ∧
    (allocRun (freshPool phys base sz) reqs).1.allocations.Pairwise
      (fun a b => a.gpu_address + a.size ≤ b.gpu_address) ∧
    (∀ (d : DeviceMem) (r : ℕ), 1 ≤ r →
        d.pool_used + align_gpu_memory r < U64 →
        d.pool_size < d.pool_used + align_gpu_memory r →
        gibgo_allocate_gpu_memory d r = (.ERROR_OUT_OF_MEMORY, d, none)) ∧
    (∀ (d : DeviceMem) (r : ℕ), 1 ≤ r → r + 255 < U64 →
        (gibgo_allocate_gpu_memory d r).1 = .SUCCESS →
        (gibgo_allocate_gpu_memory d r).2.1.allocations = d.allocations ++
          [{ gpu_address := (d.vram_physical_address + d.vram_allocation_offset) % U64,
             cpu_pointer := d.pool_memory + d.pool_used,
             size := align_gpu_memory r, in_use := true }] ∧
        r ≤ align_gpu_memory r ∧ align_gpu_memory r < r + 256 ∧
        align_gpu_memory r % 256 = 0) := by
  obtain ⟨jI, -, -, -, -, jchain⟩ :=
    allocRun_spec reqs (freshPool phys base sz) (freshPool_inv phys base sz hnw) hreqs
  refine ⟨?_, jchain, ?_, ?_, ?_⟩
  · intro al hal
    exact (jI.sizes al hal).2
  · exact contig_pairwise _ _ _ jI.contig
  · intro d r h1 hnw' hex
    exact alloc_oom d r h1 hnw' hex
  · intro d r h1 h255 hsucc
    have halign := align_spec r h255 h1
    refine ⟨?_, halign.1, halign.2.1, halign.2.2.1⟩
    simp only [gibgo_allocate_gpu_memory] at hsucc ⊢
    rw [if_neg (by omega)] at hsucc ⊢
    by_cases hex : d.pool_size < (d.pool_used + align_gpu_memory r) % U64
    · rw [if_pos hex] at hsucc
      exact absurd hsucc (by simp)
    · rw [if_neg hex] at hsucc ⊢
      by_cases hc : 256 ≤ d.allocation_count
      · rw [if_pos hc] at hsucc
        exact absurd hsucc (by simp)
      · rw [if_neg hc]

/-- Witness for C2 on a small concrete device and two requests. -/
theorem allocator_monotone_aligned_witness :
    (4096 + 1024 < U64 ∧ ∀ r ∈ [100, 300], 1 ≤ r ∧ 1024 + r + 255 < U64) ∧
    ((∀ al ∈ (allocRun (freshPool 4096 0 1024) [100, 300]).1.allocations,
        256 ≤ al.size ∧ al.size % 256 = 0) ∧
     List.Chain' (· < ·) (allocRun (freshPool 4096 0 1024) [100, 300]).2 ∧
     (allocRun (freshPool 4096 0 1024) [100, 300]).1.allocations.Pairwise
       (fun a b => a.gpu_address + a.size ≤ b.gpu_address) ∧
     (∀ (d : DeviceMem) (r : ℕ), 1 ≤ r →
         d.pool_used + align_gpu_memory r < U64 →
         d.pool_size < d.pool_used + align_gpu_memory r →
         gibgo_allocate_gpu_memory d r = (.ERROR_OUT_OF_MEMORY, d, none)) ∧
     (∀ (d : DeviceMem) (r : ℕ), 1 ≤ r → r + 255 < U64 →
         (gibgo_allocate_gpu_memory d r).1 = .SUCCESS →
         (gibgo_allocate_gpu_memory d r).2.1.allocations = d.allocations ++
           [{ gpu_address := (d.vram_physical_address + d.vram_allocation_offset) % U64,
              cpu_pointer := d.pool_memory + d.pool_used,
              size := align_gpu_memory r, in_use := true }] ∧
         r ≤ align_gpu_memory r ∧ align_gpu_memory r < r + 256 ∧
         align_gpu_memory r % 256 = 0)) :=
  ⟨⟨by decide, by decide⟩,
   allocator_monotone_aligned 4096 0 1024 (by decide) [100, 300] (by decide)⟩

/-- C2 (counterexample to the claim as stated): on a fresh device with
a 1024-byte pool, the request of `2 ^ 64 - 100` bytes exceeds the
remaining VRAM, yet — the 64-bit alignment arithmetic wrapping to an
aligned size of 0 — the call succeeds instead of returning
out-of-memory, and a second identical call succeeds with the *same*
address, so returned addresses are not strictly increasing. -/
theorem allocator_overflow_counterexample :
    1024 < U64 - 100 ∧
    (gibgo_allocate_gpu_memory (freshPool 4096 0 1024) (U64 - 100)).1 = .SUCCESS ∧
    (gibgo_allocate_gpu_memory (freshPool 4096 0 1024) (U64 - 100)).2.2 = some 4096 ∧
    (gibgo_allocate_gpu_memory
        (gibgo_allocate_gpu_memory (freshPool 4096 0 1024) (U64 - 100)).2.1
        (U64 - 100)).1 = .SUCCESS ∧
    (gibgo_allocate_gpu_memory
        (gibgo_allocate_gpu_memory (freshPool 4096 0 1024) (U64 - 100)).2.1
        (U64 - 100)).2.2 = some 4096 := by
  refine ⟨by decide, ?_, ?_, ?_, ?_⟩ <;> decide

/-- C7: a vertex at the origin with an identity MVP and an 800x600
viewport maps through `transform_vertex_to_screen` to screen
coordinates `(400, 300)` with `ndc_z = 0`, valid, color unchanged. -/
theorem transform_origin_identity :
    transform_vertex_to_screen originVertex mat4Identity 800 600 =
      { position := { x := 400, y := 300, z := 0 },
        color := originVertex.color, is_valid := true } := by
  norm_num [transform_vertex_to_screen, mat4f_mul_vec4f, originVertex, mat4Identity]

/-- C1 (code bug): the clip-space point of the origin under
`diag(1,1,1,-1)` has `w = -1 < 0`, yet `transform_vertex_to_screen`
marks the vertex valid, because the code tests `|w| > 0` where its own
comment (and the spec) require `w > 0`. -/
theorem clip_negative_w_marked_valid :
    (mat4f_mul_vec4f mat4NegW { x := 0, y := 0, z := 0, w := 1 }).w < 0 ∧
    (transform_vertex_to_screen originVertex mat4NegW 800 600).is_valid = true := by
  constructor
  · norm_num [mat4f_mul_vec4f, mat4NegW]
  · norm_num [transform_vertex_to_screen, mat4f_mul_vec4f, originVertex, mat4NegW]

/-- C3: starting from the freshly created ring (`head = tail = 0`),
submitting `N <= capacity - 1` commands with no consumer never enters
the full-ring path (and the tail advances to `N`), while submitting
`capacity` commands does trigger the full-ring path. -/
theorem ring_capacity_invariant (cap N : ℕ) (hcap : 1 ≤ cap) :
    (N ≤ cap - 1 →
      submitNoConsume N { head_offset := 0, tail_offset := 0, capacity := cap } =
        (false, { head_offset := 0, tail_offset := N, capacity := cap })) ∧
    (submitNoConsume cap { head_offset := 0, tail_offset := 0, capacity := cap }).1 = true := by
  constructor
  · intro hN
    have := submitNoConsume_run cap N 0 (by omega)
    simpa using this
  · have hrun := submitNoConsume_run cap (cap - 1) 0 (by omega)
    simp only [Nat.zero_add] at hrun
    have hsplit := submitNoConsume_add (cap - 1) 1
      { head_offset := 0, tail_offset := 0, capacity := cap } (by rw [hrun])
    rw [show (cap - 1) + 1 = cap by omega] at hsplit
    rw [hsplit, hrun]
    simp [submitNoConsume, submitOne, Nat.sub_add_cancel hcap, Nat.mod_self]

/-- Witness for C3 at the capacity `gibgo_create_device` configures. -/
theorem ring_capacity_invariant_witness :
    1 ≤ 1024 ∧
    ((1023 ≤ 1024 - 1 →
       submitNoConsume 1023 { head_offset := 0, tail_offset := 0, capacity := 1024 } =
         (false, { head_offset := 0, tail_offset := 1023, capacity := 1024 })) ∧
     (submitNoConsume 1024 { head_offset := 0, tail_offset := 0, capacity := 1024 }).1 = true) :=
  ⟨by decide, ring_capacity_invariant 1024 1023 (by decide)⟩

/-- C10 (code bug): ring slot 256 is reachable (the tail reaches 256
after 256 submissions on the freshly created 1024-slot ring), yet the
four word writes for slot 256 do not fit in the
`capacity * sizeof(u32)`-byte `command_buffer` allocation. -/
theorem ring_write_out_of_bounds :
    256 ≤ cmd_ring_capacity - 1 ∧
    (submitNoConsume 256
        { head_offset := 0, tail_offset := 0, capacity := cmd_ring_capacity }).2.tail_offset
      = 256 ∧
    ¬ command_write_within_buffer 256 := by
  refine ⟨by decide, ?_,
    by norm_num [command_write_within_buffer, command_write_end,
      cmd_ring_buffer_size, cmd_ring_capacity, sizeof_u32]⟩
  have := submitNoConsume_run cmd_ring_capacity 256 0 (by decide)
  rw [this]

/-- C6: a triangle of three valid transformed vertices whose
screen-space winding is clockwise (negative 2D cross product of the two
edge vectors from vertex 1) is discarded — the framebuffer is returned
untouched — when face culling is enabled, and is handed to
`rasterize_triangle` when face culling is disabled. -/
theorem back_face_cull (width height : ℕ) (tv1 tv2 tv3 : TransformedVertex)
    (fb : Framebuffer)
    (h1 : tv1.is_valid = true) (h2 : tv2.is_valid = true) (h3 : tv3.is_valid = true)
    (hcw : (tv2.position.x - tv1.position.x) * (tv3.position.y - tv1.position.y) -
           (tv2.position.y - tv1.position.y) * (tv3.position.x - tv1.position.x) < 0) :
    render_triangle true width height tv1 tv2 tv3 fb = fb ∧
    render_triangle false width height tv1 tv2 tv3 fb =
      rasterize_triangle width height tv1 tv2 tv3 fb := by
  have hbf : is_triangle_back_facing tv1 tv2 tv3 = true := by
    simp only [is_triangle_back_facing, decide_eq_true_eq]
    exact hcw
  constructor
  · simp [render_triangle, h1, h2, h3, hbf]
  · simp [render_triangle, h1, h2, h3]

/-- Witness for C6 on a concrete clockwise triangle. -/
theorem back_face_cull_witness :
    (tvA.is_valid = true ∧ tvB.is_valid = true ∧ tvC.is_valid = true ∧
     (tvB.position.x - tvA.position.x) * (tvC.position.y - tvA.position.y) -
       (tvB.position.y - tvA.position.y) * (tvC.position.x - tvA.position.x) < 0) ∧
    (render_triangle true 800 600 tvA tvB tvC fbZero = fbZero ∧
     render_triangle false 800 600 tvA tvB tvC fbZero =
       rasterize_triangle 800 600 tvA tvB tvC fbZero) :=
  ⟨⟨rfl, rfl, rfl, by norm_num [tvA, tvB, tvC]⟩,
   back_face_cull 800 600 tvA tvB tvC fbZero rfl rfl rfl (by norm_num [tvA, tvB, tvC])⟩

/-- C8 (counterexample to the claim as stated): after one 256-byte
allocation at address 4096, the address 4100 lies strictly inside the
live allocation's range `[4096, 4352)` and the requested size 4 fits
within it, yet `gibgo_map_gpu_memory` returns INVALID_PARAMETER:
the lookup matches only an allocation's start address. -/
theorem map_inner_address_counterexample :
    c8Dev.allocations = [{ gpu_address := 4096, cpu_pointer := 0, size := 256, in_use := true }] ∧
    4096 ≤ 4100 ∧ 4100 + 4 ≤ 4096 + 256 ∧
    gibgo_map_gpu_memory c8Dev 4100 4 = (.ERROR_INVALID_PARAMETER, none) := by
  refine ⟨?_, by decide, by decide, ?_⟩ <;> decide

/-- C8 (amended): when recorded addresses are pairwise distinct (as the
allocator guarantees), `map(address, size)` succeeds exactly when some
live allocation *starts* at `address` and the nonzero requested size
fits within it, in which case it returns that allocation's CPU pointer;
in every other case — size zero, no live allocation starting at
`address` (an address merely inside a range does not match), or a size
exceeding the matching allocation — it returns INVALID_PARAMETER. -/
theorem map_characterization (d : DeviceMem) (a s : ℕ)
    (huniq : d.allocations.Pairwise fun x y => x.gpu_address ≠ y.gpu_address) :
    ((gibgo_map_gpu_memory d a s).1 = .SUCCESS ↔
      s ≠ 0 ∧ ∃ al ∈ d.allocations, al.in_use = true ∧ al.gpu_address = a ∧ s ≤ al.size) ∧
    (∀ al ∈ d.allocations, al.in_use = true → al.gpu_address = a → s ≠ 0 → s ≤ al.size →
      gibgo_map_gpu_memory d a s = (.SUCCESS, some al.cpu_pointer)) ∧
    ((gibgo_map_gpu_memory d a s).1 ≠ .SUCCESS →
      gibgo_map_gpu_memory d a s = (.ERROR_INVALID_PARAMETER, none)) := by
  have hsucc : ∀ al ∈ d.allocations, al.in_use = true → al.gpu_address = a → s ≠ 0 →
      s ≤ al.size → gibgo_map_gpu_memory d a s = (.SUCCESS, some al.cpu_pointer) := by
    intro al hmem hin haddr hs0 hsize
    have hfind : d.allocations.find? (fun x => x.in_use && x.gpu_address == a) = some al := by
      refine find?_unique _ _ hmem (by simp [hin, haddr]) ?_
      intro y hy hpy
      simp only [Bool.and_eq_true, beq_iff_eq] at hpy
      by_contra hne
      have hsym : Symmetric fun x y : Alloc => x.gpu_address ≠ y.gpu_address :=
        fun x y h => Ne.symm h
      have := huniq.forall hsym hy hmem hne
      exact this (hpy.2.trans haddr.symm)
    unfold gibgo_map_gpu_memory
    rw [if_neg hs0, hfind]
    show (if al.size < s then ((.ERROR_INVALID_PARAMETER : GibgoResult), (none : Option ℕ))
          else (.SUCCESS, some al.cpu_pointer)) = (.SUCCESS, some al.cpu_pointer)
    rw [if_neg (by omega)]
  refine ⟨⟨?_, ?_⟩, hsucc, ?_⟩
  · intro h
    unfold gibgo_map_gpu_memory at h
    by_cases hs0 : s = 0
    · rw [if_pos hs0] at h
      exact absurd h (by simp)
    · rw [if_neg hs0] at h
      cases hfind : d.allocations.find? (fun x => x.in_use && x.gpu_address == a) with
      | none => rw [hfind] at h; exact absurd h (by simp)
      | some al =>
          rw [hfind] at h
          have h' : (if al.size < s
              then ((.ERROR_INVALID_PARAMETER : GibgoResult), (none : Option ℕ))
              else (.SUCCESS, some al.cpu_pointer)).1 = GibgoResult.SUCCESS := h
          by_cases hsz : al.size < s
          · rw [if_pos hsz] at h'; exact absurd h' (by simp)
          · have hmem := List.mem_of_find?_eq_some hfind
            have hprop := List.find?_some hfind
            simp only [Bool.and_eq_true, beq_iff_eq] at hprop
            exact ⟨hs0, al, hmem, hprop.1, hprop.2, by omega⟩
  · rintro ⟨hs0, al, hmem, hin, haddr, hsize⟩
    rw [hsucc al hmem hin haddr hs0 hsize]
  · intro h
    rcases map_fail_shape d a s with hok | hfail
    · exact absurd hok h
    · exact hfail

/-- Witness for C8's amended characterization on the one-allocation
device. -/
theorem map_characterization_witness :
    (c8Dev.allocations.Pairwise fun x y => x.gpu_address ≠ y.gpu_address) ∧
    (((gibgo_map_gpu_memory c8Dev 4096 256).1 = .SUCCESS ↔
       256 ≠ 0 ∧ ∃ al ∈ c8Dev.allocations, al.in_use = true ∧
         al.gpu_address = 4096 ∧ 256 ≤ al.size) ∧
     (∀ al ∈ c8Dev.allocations, al.in_use = true → al.gpu_address = 4096 → 256 ≠ 0 →
       256 ≤ al.size →
       gibgo_map_gpu_memory c8Dev 4096 256 = (.SUCCESS, some al.cpu_pointer)) ∧
     ((gibgo_map_gpu_memory c8Dev 4096 256).1 ≠ .SUCCESS →
       gibgo_map_gpu_memory c8Dev 4096 256 = (.ERROR_INVALID_PARAMETER, none))) :=
  ⟨by decide, map_characterization c8Dev 4096 256 (by decide)⟩

/-- C9: if `map(a, s)` returns pointer `p`, then after writing any data
through `p` the unmap call validates `p` and changes nothing, a second
`map(a, s)` returns the same pointer `p`, and reading back through it
yields exactly the written data: the backing memory is persistent. -/
theorem map_unmap_roundtrip (d : DeviceMem) (a s p : ℕ) (data : List ℕ)
    (hmap : gibgo_map_gpu_memory d a s = (.SUCCESS, some p)) :
    gibgo_unmap_gpu_memory (writeBytes d p data) p = (.SUCCESS, writeBytes d p data) ∧
    gibgo_map_gpu_memory (writeBytes d p data) a s = (.SUCCESS, some p) ∧
    readBytes (writeBytes d p data) p data.length = data := by
  -- writeBytes only changes the `mem` field
  have halloc : (writeBytes d p data).allocations = d.allocations := rfl
  -- extract the allocation found by the successful map
  have hper : ∃ al, d.allocations.find? (fun x => x.in_use && x.gpu_address == a) = some al ∧
      al.cpu_pointer = p := by
    unfold gibgo_map_gpu_memory at hmap
    by_cases hs0 : s = 0
    · rw [if_pos hs0] at hmap
      exact absurd hmap (by simp)
    · rw [if_neg hs0] at hmap
      cases hfind : d.allocations.find? (fun x => x.in_use && x.gpu_address == a) with
      | none => rw [hfind] at hmap; exact absurd hmap (by simp)
      | some al =>
          rw [hfind] at hmap
          have hmap' : (if al.size < s
              then ((.ERROR_INVALID_PARAMETER : GibgoResult), (none : Option ℕ))
              else (.SUCCESS, some al.cpu_pointer)) = (.SUCCESS, some p) := hmap
          by_cases hsz : al.size < s
          · rw [if_pos hsz] at hmap'; exact absurd hmap' (by simp)
          · rw [if_neg hsz] at hmap'
            refine ⟨al, rfl, ?_⟩
            have := congrArg Prod.snd hmap'
            simpa using this
  obtain ⟨al, hfind, hp⟩ := hper
  have hmem := List.mem_of_find?_eq_some hfind
  have hprop := List.find?_some hfind
  simp only [Bool.and_eq_true, beq_iff_eq] at hprop
  refine ⟨?_, hmap, ?_⟩
  · -- unmap finds an in-use allocation whose cpu_pointer is p
    unfold gibgo_unmap_gpu_memory
    have : ((writeBytes d p data).allocations.find?
        fun x => x.in_use && x.cpu_pointer == p).isSome := by
      rw [halloc, List.find?_isSome]
      exact ⟨al, hmem, by simp [hprop.1, hp]⟩
    cases hf : (writeBytes d p data).allocations.find?
        fun x => x.in_use && x.cpu_pointer == p with
    | none => rw [hf] at this; simp at this
    | some b => rfl
  · -- the bytes just written read back unchanged
    apply List.ext_get
    · simp [readBytes]
    · intro i h1 h2
      have hi : i < data.length := h2
      simp only [readBytes, List.get_eq_getElem, List.getElem_map, List.getElem_range]
      show (if h : p ≤ p + i ∧ p + i - p < data.length
            then data.get ⟨p + i - p, h.2⟩ else d.mem (p + i)) = data[i]
      rw [dif_pos ⟨Nat.le_add_right p i, by omega⟩]
      simp only [List.get_eq_getElem]
      congr 1
      omega

/-- Witness for C9 on the one-allocation device, writing three bytes
through the mapped pointer. -/
theorem map_unmap_roundtrip_witness :
    gibgo_map_gpu_memory c8Dev 4096 256 = (.SUCCESS, some 0) ∧
    (gibgo_unmap_gpu_memory (writeBytes c8Dev 0 [7, 11, 13]) 0 =
       (.SUCCESS, writeBytes c8Dev 0 [7, 11, 13]) ∧
     gibgo_map_gpu_memory (writeBytes c8Dev 0 [7, 11, 13]) 4096 256 =
       (.SUCCESS, some 0) ∧
     readBytes (writeBytes c8Dev 0 [7, 11, 13]) 0 [7, 11, 13].length = [7, 11, 13]) :=
  ⟨by decide, map_unmap_roundtrip c8Dev 4096 256 0 [7, 11, 13] (by decide)⟩

/-- C4: at a pixel covered by two triangles whose interpolated depths
there are `0.2` (triangle `tA`) and `0.8` (triangle `tB`), with the
depth buffer cleared to the far value `1000`, rasterizing in either
order (far-then-near or near-then-far) leaves the pixel with the color
interpolated from the nearer triangle `tA`; and in general a
triangle's color is written at a pixel only when its interpolated `z`
beats the stored depth, which is then updated. -/
theorem depth_test_order_independent (width height : ℕ) (tA tB : DepthTri)
    (fb : Framebuffer) (db : ℕ → ℚ) (x y : ℕ) (hx : x < width)
    (hA : depth_hit width height tA x y) (hB : depth_hit width height tB x y)
    (hzA : depth_z tA (x : ℚ) (y : ℚ) = 1/5) (hzB : depth_z tB (x : ℚ) (y : ℚ) = 4/5)
    (hdb : db (y * width + x) = 1000) :
    ((rasterize_triangle_depth width height tA
        (rasterize_triangle_depth width height tB fb db).1
        (rasterize_triangle_depth width height tB fb db).2).1 (y * width + x) =
      packColorDepth (depth_color tA (x : ℚ) (y : ℚ))) ∧
    ((rasterize_triangle_depth width height tB
        (rasterize_triangle_depth width height tA fb db).1
        (rasterize_triangle_depth width height tA fb db).2).1 (y * width + x) =
      packColorDepth (depth_color tA (x : ℚ) (y : ℚ))) ∧
    (∀ db2 : ℕ → ℚ, ¬ depth_z tA (x : ℚ) (y : ℚ) < db2 (y * width + x) →
      (rasterize_triangle_depth width height tA fb db2).1 (y * width + x) =
          fb (y * width + x) ∧
      (rasterize_triangle_depth width height tA fb db2).2 (y * width + x) =
          db2 (y * width + x)) := by
  have hw : 0 < width := by omega
  have hmod : (y * width + x) % width = x := by
    rw [show y * width + x = x + y * width by omega]
    rw [Nat.add_mul_mod_self_right]
    exact Nat.mod_eq_of_lt hx
  have hdiv : (y * width + x) / width = y := by
    rw [show y * width + x = x + y * width by omega]
    rw [Nat.add_mul_div_right _ _ hw]
    rw [Nat.div_eq_of_lt hx]
    omega
  refine ⟨?_, ?_, ?_⟩
  · -- far then near
    simp only [rasterize_triangle_depth, hmod, hdiv, hdb, hzA, hzB]
    have hcondB : depth_hit width height tB x y ∧ (4 : ℚ)/5 < 1000 := ⟨hB, by norm_num⟩
    rw [if_pos hcondB]
    have hcondA : depth_hit width height tA x y ∧ (1 : ℚ)/5 < 4/5 := ⟨hA, by norm_num⟩
    rw [if_pos hcondA]
  · -- near then far
    simp only [rasterize_triangle_depth, hmod, hdiv, hdb, hzA, hzB]
    have hcondA : depth_hit width height tA x y ∧ (1 : ℚ)/5 < 1000 := ⟨hA, by norm_num⟩
    rw [if_pos hcondA]
    have hcondB : ¬ (depth_hit width height tB x y ∧ (4 : ℚ)/5 < 1/5) :=
      fun hcon => absurd hcon.2 (by norm_num)
    rw [if_neg hcondB]
    rw [if_pos hcondA]
  · intro db2 hlt
    simp only [rasterize_triangle_depth, hmod, hdiv]
    constructor
    · rw [if_neg (by exact fun hcon => hlt hcon.2)]
    · rw [if_neg (by exact fun hcon => hlt hcon.2)]

/-- A red triangle with screen vertices `(0,0)`, `(10,0)`, `(0,10)`,
flat at depth `1/5`. -/
def dtNear : DepthTri :=
  { x0 := 0, y0 := 0, z0 := 1/5, x1 := 10, y1 := 0, z1 := 1/5,
    x2 := 0, y2 := 10, z2 := 1/5,
    c0 := { x := 1, y := 0, z := 0 }, c1 := { x := 1, y := 0, z := 0 },
    c2 := { x := 1, y := 0, z := 0 } }

/-- A blue triangle on the same screen vertices, flat at depth `4/5`. -/
def dtFar : DepthTri :=
  { x0 := 0, y0 := 0, z0 := 4/5, x1 := 10, y1 := 0, z1 := 4/5,
    x2 := 0, y2 := 10, z2 := 4/5,
    c0 := { x := 0, y := 0, z := 1 }, c1 := { x := 0, y := 0, z := 1 },
    c2 := { x := 0, y := 0, z := 1 } }

/-- A depth buffer cleared to the far value `1000`. -/
def dbInit : ℕ → ℚ := fun _ => 1000

/-- Witness for C4 at pixel `(2, 2)` of the two concrete overlapping
triangles. -/
theorem depth_test_order_independent_witness :
    ((2 : ℕ) < 800 ∧ depth_hit 800 600 dtNear 2 2 ∧ depth_hit 800 600 dtFar 2 2 ∧
     depth_z dtNear ((2 : ℕ) : ℚ) ((2 : ℕ) : ℚ) = 1/5 ∧
     depth_z dtFar ((2 : ℕ) : ℚ) ((2 : ℕ) : ℚ) = 4/5 ∧
     dbInit (2 * 800 + 2) = 1000) ∧
    (((rasterize_triangle_depth 800 600 dtNear
         (rasterize_triangle_depth 800 600 dtFar fbZero dbInit).1
         (rasterize_triangle_depth 800 600 dtFar fbZero dbInit).2).1 (2 * 800 + 2) =
       packColorDepth (depth_color dtNear ((2 : ℕ) : ℚ) ((2 : ℕ) : ℚ))) ∧
     ((rasterize_triangle_depth 800 600 dtFar
         (rasterize_triangle_depth 800 600 dtNear fbZero dbInit).1
         (rasterize_triangle_depth 800 600 dtNear fbZero dbInit).2).1 (2 * 800 + 2) =
       packColorDepth (depth_color dtNear ((2 : ℕ) : ℚ) ((2 : ℕ) : ℚ))) ∧
     (∀ db2 : ℕ → ℚ,
       ¬ depth_z dtNear ((2 : ℕ) : ℚ) ((2 : ℕ) : ℚ) < db2 (2 * 800 + 2) →
       (rasterize_triangle_depth 800 600 dtNear fbZero db2).1 (2 * 800 + 2) =
           fbZero (2 * 800 + 2) ∧
       (rasterize_triangle_depth 800 600 dtNear fbZero db2).2 (2 * 800 + 2) =
           db2 (2 * 800 + 2))) := by
  have hitNear : depth_hit 800 600 dtNear 2 2 := by
    norm_num [depth_hit, depth_min_x, depth_max_x, depth_min_y, depth_max_y,
      depth_denom, depth_w0, depth_w1, depth_w2, dtNear, ratTrunc]
  have hitFar : depth_hit 800 600 dtFar 2 2 := by
    norm_num [depth_hit, depth_min_x, depth_max_x, depth_min_y, depth_max_y,
      depth_denom, depth_w0, depth_w1, depth_w2, dtFar, ratTrunc]
  have hzNear : depth_z dtNear ((2 : ℕ) : ℚ) ((2 : ℕ) : ℚ) = 1/5 := by
    norm_num [depth_z, depth_w0, depth_w1, depth_w2, depth_denom, dtNear]
  have hzFar : depth_z dtFar ((2 : ℕ) : ℚ) ((2 : ℕ) : ℚ) = 4/5 := by
    norm_num [depth_z, depth_w0, depth_w1, depth_w2, depth_denom, dtFar]
  exact ⟨⟨by norm_num, hitNear, hitFar, hzNear, hzFar, rfl⟩,
    depth_test_order_independent 800 600 dtNear dtFar fbZero dbInit 2 2
      (by norm_num) hitNear hitFar hzNear hzFar rfl⟩

/-! ## C5: rasterizer coverage for the concrete test triangle -/

/-- Transformed vertex `(400, 150)`, red. -/
def rv1 : TransformedVertex :=
  { position := { x := 400, y := 150, z := 0 },
    color := { x := 1, y := 0, z := 0 }, is_valid := true }

/-- Transformed vertex `(200, 450)`, green. -/
def rv2 : TransformedVertex :=
  { position := { x := 200, y := 450, z := 0 },
    color := { x := 0, y := 1, z := 0 }, is_valid := true }

/-- Transformed vertex `(600, 450)`, blue. -/
def rv3 : TransformedVertex :=
  { position := { x := 600, y := 450, z := 0 },
    color := { x := 0, y := 0, z := 1 }, is_valid := true }

theorem q_div_nonneg_iff {a c : ℚ} (hc : 0 < c) : 0 ≤ a / c ↔ 0 ≤ a := by
  constructor
  · intro h
    have h2 := mul_nonneg h (le_of_lt hc)
    rwa [div_mul_cancel₀ _ (ne_of_gt hc)] at h2
  · intro h
    exact div_nonneg h (le_of_lt hc)

/-- Closed form of the barycentric test for the triangle
`(400,150), (200,450), (600,450)`: the denominator is `1.44e10` (never
degenerate) and the weights reduce to linear expressions in the pixel
coordinates. -/
theorem pit_tri_concrete (px py : ℚ) :
    point_in_triangle_barycentric px py 400 150 200 450 600 450 =
      if 1500 ≤ 3*px + 2*py ∧ 3*px ≤ 2*py + 900 ∧ py ≤ 450
      then some ((3*px + 2*py - 1500)/1200, (2*py - 3*px + 900)/1200, (450 - py)/300)
      else none := by
  unfold point_in_triangle_barycentric
  norm_num
  refine if_congr ?_ ?_ rfl
  · constructor
    · rintro ⟨h1, h2, h3⟩
      exact ⟨by linarith, by linarith, by linarith⟩
    · rintro ⟨h1, h2, h3⟩
      exact ⟨by linarith, by linarith, by linarith⟩
  · simp only [Option.some.injEq, Prod.mk.injEq]
    refine ⟨by ring, by ring, by ring⟩

theorem rtri_start_x : raster_start_x rv1 rv2 rv3 = 200 := by
  norm_num [raster_start_x, rv1, rv2, rv3, ratTrunc, min_def, max_def]

theorem rtri_end_x : raster_end_x 800 rv1 rv2 rv3 = 600 := by
  norm_num [raster_end_x, rv1, rv2, rv3, ratTrunc, min_def, max_def]

theorem rtri_start_y : raster_start_y rv1 rv2 rv3 = 150 := by
  norm_num [raster_start_y, rv1, rv2, rv3, ratTrunc, min_def, max_def]

theorem rtri_end_y : raster_end_y 600 rv1 rv2 rv3 = 450 := by
  norm_num [raster_end_y, rv1, rv2, rv3, ratTrunc, min_def, max_def]

/-- Weights nonnegative implies the pixel lies in the triangle's
bounding box `[200, 600] x [150, 450]`. -/
theorem tri_cov_bound (x y : ℕ)
    (h1 : 1500 ≤ 3*(x:ℚ) + 2*(y:ℚ)) (h2 : 3*(x:ℚ) ≤ 2*(y:ℚ) + 900)
    (h3 : ((y:ℚ)) ≤ 450) :
    200 ≤ x ∧ x ≤ 600 ∧ 150 ≤ y ∧ y ≤ 450 := by
  have hx1 : (200:ℚ) ≤ (x:ℚ) := by linarith
  have hx2 : ((x:ℚ)) ≤ 600 := by linarith
  have hy1 : (150:ℚ) ≤ (y:ℚ) := by linarith
  exact ⟨by exact_mod_cast hx1, by exact_mod_cast hx2,
    by exact_mod_cast hy1, by exact_mod_cast h3⟩

/-- C5: for the triangle with screen vertices `(400,150)` red,
`(200,450)` green, `(600,450)` blue, a framebuffer pixel is written iff
all three barycentric weights are nonnegative, in which case it
receives the barycentric-interpolated packed color; no pixel strictly
outside the bounding box `[200,600] x [150,450]` is ever written; and
the centroid pixel `(400, 350)` receives the equal-weighted
`(1/3, 1/3, 1/3)` blend of the three vertex colors. -/
theorem rasterizer_coverage (fb : Framebuffer) (x y : ℕ)
    (hx : x < 800) (hy : y < 600) :
    (rasterize_triangle 800 600 rv1 rv2 rv3 fb (y * 800 + x) =
      if 0 ≤ (3*(x:ℚ) + 2*(y:ℚ) - 1500)/1200 ∧ 0 ≤ (2*(y:ℚ) - 3*(x:ℚ) + 900)/1200 ∧
         0 ≤ (450 - (y:ℚ))/300
      then packColor (interpolate_triangle_color rv1.color rv2.color rv3.color
             ((3*(x:ℚ) + 2*(y:ℚ) - 1500)/1200) ((2*(y:ℚ) - 3*(x:ℚ) + 900)/1200)
             ((450 - (y:ℚ))/300))
      else fb (y * 800 + x)) ∧
    (x < 200 ∨ 600 < x ∨ y < 150 ∨ 450 < y →
      rasterize_triangle 800 600 rv1 rv2 rv3 fb (y * 800 + x) = fb (y * 800 + x)) ∧
    (x = 400 → y = 350 →
      rasterize_triangle 800 600 rv1 rv2 rv3 fb (y * 800 + x) =
        packColor (interpolate_triangle_color rv1.color rv2.color rv3.color
          (1/3) (1/3) (1/3))) := by
  have hmod : (y * 800 + x) % 800 = x := by
    rw [show y * 800 + x = x + y * 800 by omega]
    rw [Nat.add_mul_mod_self_right]
    exact Nat.mod_eq_of_lt hx
  have hdiv : (y * 800 + x) / 800 = y := by
    rw [show y * 800 + x = x + y * 800 by omega]
    rw [Nat.add_mul_div_right _ _ (by omega : 0 < 800)]
    rw [Nat.div_eq_of_lt hx]
    omega
  have hmain : rasterize_triangle 800 600 rv1 rv2 rv3 fb (y * 800 + x) =
      if 1500 ≤ 3*(x:ℚ) + 2*(y:ℚ) ∧ 3*(x:ℚ) ≤ 2*(y:ℚ) + 900 ∧ ((y:ℚ)) ≤ 450
      then packColor (interpolate_triangle_color rv1.color rv2.color rv3.color
             ((3*(x:ℚ) + 2*(y:ℚ) - 1500)/1200) ((2*(y:ℚ) - 3*(x:ℚ) + 900)/1200)
             ((450 - (y:ℚ))/300))
      else fb (y * 800 + x) := by
    simp only [rasterize_triangle, hmod, hdiv, rtri_start_x, rtri_end_x,
      rtri_start_y, rtri_end_y]
    simp only [rv1, rv2, rv3, pit_tri_concrete]
    by_cases hcov : 1500 ≤ 3*(x:ℚ) + 2*(y:ℚ) ∧ 3*(x:ℚ) ≤ 2*(y:ℚ) + 900 ∧ ((y:ℚ)) ≤ 450
    · obtain ⟨hb1, hb2, hb3, hb4⟩ := tri_cov_bound x y hcov.1 hcov.2.1 hcov.2.2
      have hbZ : (150:ℤ) ≤ (y:ℤ) ∧ (y:ℤ) ≤ 450 ∧ (200:ℤ) ≤ (x:ℤ) ∧ (x:ℤ) ≤ 600 :=
        ⟨by exact_mod_cast hb3, by exact_mod_cast hb4,
         by exact_mod_cast hb1, by exact_mod_cast hb2⟩
      simp only [if_pos hcov, if_pos hbZ,
        if_pos (show y * 800 + x < 800 * 600 by omega)]
    · simp only [if_neg hcov]
      by_cases hbb : (150:ℤ) ≤ (y:ℤ) ∧ (y:ℤ) ≤ 450 ∧ (200:ℤ) ≤ (x:ℤ) ∧ (x:ℤ) ≤ 600
      · simp only [if_pos hbb]
      · simp only [if_neg hbb]
  have hcondiff :
      (0 ≤ (3*(x:ℚ) + 2*(y:ℚ) - 1500)/1200 ∧ 0 ≤ (2*(y:ℚ) - 3*(x:ℚ) + 900)/1200 ∧
        0 ≤ (450 - (y:ℚ))/300) ↔
      (1500 ≤ 3*(x:ℚ) + 2*(y:ℚ) ∧ 3*(x:ℚ) ≤ 2*(y:ℚ) + 900 ∧ ((y:ℚ)) ≤ 450) := by
    rw [q_div_nonneg_iff (by norm_num : (0:ℚ) < 1200),
        q_div_nonneg_iff (by norm_num : (0:ℚ) < 1200),
        q_div_nonneg_iff (by norm_num : (0:ℚ) < 300)]
    constructor
    · rintro ⟨h1, h2, h3⟩
      exact ⟨by linarith, by linarith, by linarith⟩
    · rintro ⟨h1, h2, h3⟩
      exact ⟨by linarith, by linarith, by linarith⟩
  refine ⟨?_, ?_, ?_⟩
  · rw [hmain]
    exact (if_congr hcondiff rfl rfl).symm
  · intro hout
    rw [hmain]
    rw [if_neg]
    rintro ⟨h1, h2, h3⟩
    obtain ⟨hb1, hb2, hb3, hb4⟩ := tri_cov_bound x y h1 h2 h3
    omega
  · rintro rfl rfl
    rw [hmain]
    rw [if_pos (by push_cast; norm_num)]
    have e1 : (3*((400:ℕ):ℚ) + 2*((350:ℕ):ℚ) - 1500)/1200 = 1/3 := by push_cast; norm_num
    have e2 : (2*((350:ℕ):ℚ) - 3*((400:ℕ):ℚ) + 900)/1200 = 1/3 := by push_cast; norm_num
    have e3 : (450 - ((350:ℕ):ℚ))/300 = 1/3 := by push_cast; norm_num
    rw [e1, e2, e3]

/-- Witness for C5 at the centroid pixel `(400, 350)`. -/
theorem rasterizer_coverage_witness :
    ((400 : ℕ) < 800 ∧ (350 : ℕ) < 600) ∧
    ((rasterize_triangle 800 600 rv1 rv2 rv3 fbZero (350 * 800 + 400) =
       if 0 ≤ (3*((400:ℕ):ℚ) + 2*((350:ℕ):ℚ) - 1500)/1200 ∧
          0 ≤ (2*((350:ℕ):ℚ) - 3*((400:ℕ):ℚ) + 900)/1200 ∧
          0 ≤ (450 - ((350:ℕ):ℚ))/300
       then packColor (interpolate_triangle_color rv1.color rv2.color rv3.color
              ((3*((400:ℕ):ℚ) + 2*((350:ℕ):ℚ) - 1500)/1200)
              ((2*((350:ℕ):ℚ) - 3*((400:ℕ):ℚ) + 900)/1200)
              ((450 - ((350:ℕ):ℚ))/300))
       else fbZero (350 * 800 + 400)) ∧
     ((400 : ℕ) < 200 ∨ 600 < (400 : ℕ) ∨ (350 : ℕ) < 150 ∨ 450 < (350 : ℕ) →
       rasterize_triangle 800 600 rv1 rv2 rv3 fbZero (350 * 800 + 400) =
         fbZero (350 * 800 + 400)) ∧
     ((400 : ℕ) = 400 → (350 : ℕ) = 350 →
       rasterize_triangle 800 600 rv1 rv2 rv3 fbZero (350 * 800 + 400) =
         packColor (interpolate_triangle_color rv1.color rv2.color rv3.color
           (1/3) (1/3) (1/3)))) :=
  ⟨⟨by decide, by decide⟩, rasterizer_coverage fbZero 400 350 (by decide) (by decide)⟩

end Gibgo
